import Mathlib

/-!
Verification of the specification-table builder of `prattle-rs` (`src/spec.rs`).

The builder `ParserSpec<T, Node>` keeps two hash maps keyed by
`std::mem::Discriminant<T>`: `null_map` (prefix rules, storing a binding
power and a null-denotation function) and `left_map` (infix rules, storing
left and right binding powers and a left-denotation function).  Registration
follows a write-once discipline: a second registration for the same
discriminant in the same map fails with
`SpecificationError::TokenToRuleAlreadyDefined`.

The embedding below is shallow:
  * a `HashMap<Discriminant<T>, V>` becomes an association list
    `List (D × V)` with lookup by decidable equality on `D` — all source
    insertions are guarded by key absence, so keys stay unique and list
    length coincides with the hash map size;
  * `std::mem::discriminant` becomes an explicit function `disc : T → D`
    from tokens to a discriminant type (payload-insensitive by the choice
    of `disc`, exactly as Rust derives it from the enum variant);
  * `&mut self → Result<(), SpecificationError<T>>` becomes
    `ParserSpec → Except (SpecificationError T) Unit × ParserSpec`,
    the second component being the state of the table after the call;
  * the opaque denotation function pointers `NullDenotation` /
    `LeftDenotation` become opaque type parameters `NF` / `LF`.
-/

namespace Prattle

/-- Modelled from the spec: `PrecedenceLevel` comes from the `precedence`
module, which is not present under `src/`; the spec describes a binding power
as "an unsigned precedence level", so it is modelled as `Nat`.  The builder
only stores and returns these values, never computes with them. -/
abbrev PrecedenceLevel : Type := Nat

/-- `SpecificationError<T>` from `src/spec.rs`: the only error kind, raised
when a specification attempts to assign more than one syntax rule to the
same token discriminant; it carries the offending token. -/
inductive SpecificationError (T : Type) where
  | TokenToRuleAlreadyDefined (tk : T)
  deriving DecidableEq

/-- `ParserSpec<T, Node>` from `src/spec.rs`: two write-once maps keyed by
token discriminant.  `D` is the discriminant type, `NF` the type of
null-denotation (prefix) rule functions, `LF` the type of left-denotation
(infix) rule functions. -/
structure ParserSpec (D NF LF : Type) where
  null_map : List (D × (PrecedenceLevel × NF))
  left_map : List (D × (PrecedenceLevel × PrecedenceLevel × LF))
  deriving DecidableEq

/-- Lookup in the association-list model of the hash map: the value of the
first entry whose key equals `k`. -/
def mapLookup {D V : Type} [DecidableEq D] (m : List (D × V)) (k : D) : Option V :=
  match m with
  | [] => none
  | (k', v) :: rest => if k' = k then some v else mapLookup rest k

/-- `HashMap::contains_key` in the association-list model. -/
def containsKey {D V : Type} [DecidableEq D] (m : List (D × V)) (k : D) : Bool :=
  (mapLookup m k).isSome

namespace ParserSpec

variable {T D NF LF : Type} [DecidableEq D]

/-- `ParserSpec::new`: an empty table with no rules in either map. -/
def new : ParserSpec D NF LF :=
  { null_map := [], left_map := [] }

/-- The `Default` impl for `ParserSpec`, which just calls `Self::new()`. -/
def defaultSpec : ParserSpec D NF LF :=
  new

/-- `ParserSpec::add_null_assoc`: register a prefix (null-denotation) rule.
The source matches on `self.null_map.entry(disc)`: an occupied entry fails
with `TokenToRuleAlreadyDefined { tk: token }`, a vacant entry receives
`(bp, func)` via `or_insert`. -/
def add_null_assoc (spec : ParserSpec D NF LF) (disc : T → D) (token : T)
    (bp : PrecedenceLevel) (func : NF) :
    Except (SpecificationError T) Unit × ParserSpec D NF LF :=
  let d := disc token
  match mapLookup spec.null_map d with
  | some _ => (.error (.TokenToRuleAlreadyDefined token), spec)
  | none => (.ok (), { spec with null_map := (d, (bp, func)) :: spec.null_map })

/-- `ParserSpec::add_left_assoc`: register an infix (left-denotation) rule
with equal left and right binding power.  The source tests
`!self.left_map.contains_key(&disc)` and inserts `(bp, bp, func)` on
success. -/
def add_left_assoc (spec : ParserSpec D NF LF) (disc : T → D) (token : T)
    (bp : PrecedenceLevel) (func : LF) :
    Except (SpecificationError T) Unit × ParserSpec D NF LF :=
  let d := disc token
  if !(containsKey spec.left_map d) then
    (.ok (), { spec with left_map := (d, (bp, bp, func)) :: spec.left_map })
  else
    (.error (.TokenToRuleAlreadyDefined token), spec)

/-- `ParserSpec::add_left_right_assoc`: register an infix (left-denotation)
rule with distinct left and right binding powers, inserting
`(lbp, rbp, func)` when the key is absent. -/
def add_left_right_assoc (spec : ParserSpec D NF LF) (disc : T → D) (token : T)
    (lbp rbp : PrecedenceLevel) (func : LF) :
    Except (SpecificationError T) Unit × ParserSpec D NF LF :=
  let d := disc token
  if !(containsKey spec.left_map d) then
    (.ok (), { spec with left_map := (d, (lbp, rbp, func)) :: spec.left_map })
  else
    (.error (.TokenToRuleAlreadyDefined token), spec)

/-- `ParserSpec::add_null_associations`: `add_null_assoc` for each token in
order, the `?` operator propagating the first error. -/
def add_null_associations (spec : ParserSpec D NF LF) (disc : T → D)
    (tokens : List T) (bp : PrecedenceLevel) (func : NF) :
    Except (SpecificationError T) Unit × ParserSpec D NF LF :=
  match tokens with
  | [] => (.ok (), spec)
  | t :: ts =>
    match add_null_assoc spec disc t bp func with
    | (.error e, s) => (.error e, s)
    | (.ok _, s) => add_null_associations s disc ts bp func

/-- `ParserSpec::add_left_associations`: `add_left_assoc` for each token in
order, propagating the first error. -/
def add_left_associations (spec : ParserSpec D NF LF) (disc : T → D)
    (tokens : List T) (bp : PrecedenceLevel) (func : LF) :
    Except (SpecificationError T) Unit × ParserSpec D NF LF :=
  match tokens with
  | [] => (.ok (), spec)
  | t :: ts =>
    match add_left_assoc spec disc t bp func with
    | (.error e, s) => (.error e, s)
    | (.ok _, s) => add_left_associations s disc ts bp func

/-- `ParserSpec::add_left_right_associations`: `add_left_right_assoc` for
each token in order, propagating the first error. -/
def add_left_right_associations (spec : ParserSpec D NF LF) (disc : T → D)
    (tokens : List T) (lbp rbp : PrecedenceLevel) (func : LF) :
    Except (SpecificationError T) Unit × ParserSpec D NF LF :=
  match tokens with
  | [] => (.ok (), spec)
  | t :: ts =>
    match add_left_right_assoc spec disc t lbp rbp func with
    | (.error e, s) => (.error e, s)
    | (.ok _, s) => add_left_right_associations s disc ts lbp rbp func

/-- `ParserSpec::maps`: consumes the spec and yields the two maps by move. -/
def maps (spec : ParserSpec D NF LF) :
    List (D × (PrecedenceLevel × NF)) ×
    List (D × (PrecedenceLevel × PrecedenceLevel × LF)) :=
  (spec.null_map, spec.left_map)

end ParserSpec

/-- A concrete token type in the shape of the spec's testable scenario:
`Number` carries a numeric payload, `Plus` and `Caret` carry none. -/
inductive TestToken where
  | number (n : Nat)
  | plus
  | caret
  deriving DecidableEq

/-- The discriminant type of `TestToken`, one value per variant, as
`std::mem::Discriminant<TestToken>` behaves. -/
inductive TestDisc where
  | number
  | plus
  | caret
  deriving DecidableEq

/-- `std::mem::discriminant` on `TestToken`: the variant tag, ignoring any
carried payload. -/
def TestToken.disc : TestToken → TestDisc
  | .number _ => .number
  | .plus => .plus
  | .caret => .caret

/-! ## Helper lemmas about the association-list map model -/

theorem mapLookup_cons_self {D V : Type} [DecidableEq D] (m : List (D × V)) (k : D) (v : V) :
    mapLookup ((k, v) :: m) k = some v := by
  simp [mapLookup]

theorem mapLookup_cons_ne {D V : Type} [DecidableEq D] (m : List (D × V)) (k k' : D) (v : V)
    (h : k' ≠ k) : mapLookup ((k', v) :: m) k = mapLookup m k := by
  simp [mapLookup, h]

open ParserSpec

/-! ## Claim theorems -/

/-- C1: write-once registration.  For every table state and token category:
when no entry exists for the category in the relevant map, a single
registration (`add_null_assoc` for the prefix namespace;
`add_left_assoc` / `add_left_right_assoc` for the infix namespace) succeeds
and stores the given entry; when an entry already exists, the call fails
with `TokenToRuleAlreadyDefined` carrying the newly passed token and returns
the table completely unchanged, so the first entry is preserved and no
overwrite occurs. -/
theorem write_once_registration
    {T D NF LF : Type} [DecidableEq D] (disc : T → D)
    (spec : ParserSpec D NF LF) (tok : T)
    (bp lbp rbp : PrecedenceLevel) (nf : NF) (lf : LF) :
    (mapLookup spec.null_map (disc tok) = none →
      spec.add_null_assoc disc tok bp nf
        = (.ok (), { spec with null_map := (disc tok, (bp, nf)) :: spec.null_map }) ∧
      mapLookup (spec.add_null_assoc disc tok bp nf).2.null_map (disc tok) = some (bp, nf)) ∧
    (∀ v, mapLookup spec.null_map (disc tok) = some v →
      spec.add_null_assoc disc tok bp nf
        = (.error (.TokenToRuleAlreadyDefined tok), spec)) ∧
    (mapLookup spec.left_map (disc tok) = none →
      spec.add_left_assoc disc tok bp lf
        = (.ok (), { spec with left_map := (disc tok, (bp, bp, lf)) :: spec.left_map }) ∧
      mapLookup (spec.add_left_assoc disc tok bp lf).2.left_map (disc tok)
        = some (bp, bp, lf) ∧
      spec.add_left_right_assoc disc tok lbp rbp lf
        = (.ok (), { spec with left_map := (disc tok, (lbp, rbp, lf)) :: spec.left_map }) ∧
      mapLookup (spec.add_left_right_assoc disc tok lbp rbp lf).2.left_map (disc tok)
        = some (lbp, rbp, lf)) ∧
    (∀ v, mapLookup spec.left_map (disc tok) = some v →
      spec.add_left_assoc disc tok bp lf
        = (.error (.TokenToRuleAlreadyDefined tok), spec) ∧
      spec.add_left_right_assoc disc tok lbp rbp lf
        = (.error (.TokenToRuleAlreadyDefined tok), spec)) := by
  refine ⟨fun hn => ?_, fun v hv => ?_, fun hl => ?_, fun v hv => ?_⟩
  · simp [add_null_assoc, hn, mapLookup_cons_self]
  · simp [add_null_assoc, hv]
  · simp [add_left_assoc, add_left_right_assoc, containsKey, hl, mapLookup_cons_self]
  · simp [add_left_assoc, add_left_right_assoc, containsKey, hv]

/-- Witness for C1 at a concrete input: a table that already has both a
prefix and an infix entry for the `Plus` discriminant rejects a second
registration in each namespace and is returned unchanged, and the empty
table accepts a prefix registration. -/
theorem write_once_registration_witness :
    ParserSpec.add_null_assoc
        ({ null_map := [(TestDisc.plus, (5, 7))],
           left_map := [(TestDisc.plus, (3, 4, 9))] } : ParserSpec TestDisc Nat Nat)
        TestToken.disc TestToken.plus 1 2
      = (.error (.TokenToRuleAlreadyDefined TestToken.plus),
         { null_map := [(TestDisc.plus, (5, 7))],
           left_map := [(TestDisc.plus, (3, 4, 9))] }) ∧
    ParserSpec.add_left_right_assoc
        ({ null_map := [(TestDisc.plus, (5, 7))],
           left_map := [(TestDisc.plus, (3, 4, 9))] } : ParserSpec TestDisc Nat Nat)
        TestToken.disc TestToken.plus 1 2 6
      = (.error (.TokenToRuleAlreadyDefined TestToken.plus),
         { null_map := [(TestDisc.plus, (5, 7))],
           left_map := [(TestDisc.plus, (3, 4, 9))] }) ∧
    ParserSpec.add_null_assoc (ParserSpec.new : ParserSpec TestDisc Nat Nat)
        TestToken.disc TestToken.plus 1 2
      = (.ok (), { null_map := [(TestDisc.plus, (1, 2))], left_map := [] }) :=
  ⟨(write_once_registration TestToken.disc
      ({ null_map := [(TestDisc.plus, (5, 7))],
         left_map := [(TestDisc.plus, (3, 4, 9))] } : ParserSpec TestDisc Nat Nat)
      TestToken.plus 1 1 2 2 9).2.1 (5, 7) rfl,
   ((write_once_registration TestToken.disc
      ({ null_map := [(TestDisc.plus, (5, 7))],
         left_map := [(TestDisc.plus, (3, 4, 9))] } : ParserSpec TestDisc Nat Nat)
      TestToken.plus 1 1 2 2 6).2.2.2 (3, 4, 9) rfl).2,
   (((write_once_registration TestToken.disc (ParserSpec.new : ParserSpec TestDisc Nat Nat)
      TestToken.plus 1 1 2 2 2).1 rfl).1)⟩

/-- C2: `add_left_assoc tok p f` behaves exactly as
`add_left_right_assoc tok p p f` on every table state — same result value
(success or error) and identical resulting table, storing the triple
`(p, p, f)`. -/
theorem add_left_assoc_refines_add_left_right_assoc
    {T D NF LF : Type} [DecidableEq D] (disc : T → D)
    (spec : ParserSpec D NF LF) (tok : T) (bp : PrecedenceLevel) (lf : LF) :
    spec.add_left_assoc disc tok bp lf = spec.add_left_right_assoc disc tok bp bp lf := rfl

/-- C3: category identity ignores payload.  For two token values with the
same discriminant (same variant, any payloads), registering a prefix rule
for the first from a state with no entry for that category succeeds, and a
second prefix registration using the other token fails with
`TokenToRuleAlreadyDefined` carrying the second token; symmetrically for the
infix namespace. -/
theorem category_identity_ignores_payload
    {T D NF LF : Type} [DecidableEq D] (disc : T → D)
    (spec : ParserSpec D NF LF) (t1 t2 : T)
    (bp1 bp2 lbp1 rbp1 lbp2 rbp2 : PrecedenceLevel) (nf1 nf2 : NF) (lf1 lf2 : LF)
    (hsame : disc t1 = disc t2)
    (hnull : mapLookup spec.null_map (disc t1) = none)
    (hleft : mapLookup spec.left_map (disc t1) = none) :
    (spec.add_null_assoc disc t1 bp1 nf1).1 = .ok () ∧
    (spec.add_null_assoc disc t1 bp1 nf1).2.add_null_assoc disc t2 bp2 nf2
      = (.error (.TokenToRuleAlreadyDefined t2), (spec.add_null_assoc disc t1 bp1 nf1).2) ∧
    (spec.add_left_right_assoc disc t1 lbp1 rbp1 lf1).1 = .ok () ∧
    (spec.add_left_right_assoc disc t1 lbp1 rbp1 lf1).2.add_left_right_assoc
        disc t2 lbp2 rbp2 lf2
      = (.error (.TokenToRuleAlreadyDefined t2),
         (spec.add_left_right_assoc disc t1 lbp1 rbp1 lf1).2) := by
  refine ⟨?_, ?_, ?_, ?_⟩
  · simp [ParserSpec.add_null_assoc, hnull]
  · simp [ParserSpec.add_null_assoc, hnull, ← hsame, mapLookup_cons_self]
  · simp [ParserSpec.add_left_right_assoc, containsKey, hleft]
  · simp [ParserSpec.add_left_right_assoc, containsKey, hleft, ← hsame, mapLookup_cons_self]

/-- Witness for C3: two `Number` tokens with payloads `1` and `2` collide —
the second registration fails as a duplicate in each namespace, starting
from the empty table. -/
theorem category_identity_ignores_payload_witness :
    ((ParserSpec.new : ParserSpec TestDisc Nat Nat).add_null_assoc
        TestToken.disc (TestToken.number 1) 4 7).2.add_null_assoc
        TestToken.disc (TestToken.number 2) 5 8
      = (.error (.TokenToRuleAlreadyDefined (TestToken.number 2)),
         ((ParserSpec.new : ParserSpec TestDisc Nat Nat).add_null_assoc
            TestToken.disc (TestToken.number 1) 4 7).2) ∧
    ((ParserSpec.new : ParserSpec TestDisc Nat Nat).add_left_right_assoc
        TestToken.disc (TestToken.number 1) 4 3 7).2.add_left_right_assoc
        TestToken.disc (TestToken.number 2) 5 6 8
      = (.error (.TokenToRuleAlreadyDefined (TestToken.number 2)),
         ((ParserSpec.new : ParserSpec TestDisc Nat Nat).add_left_right_assoc
            TestToken.disc (TestToken.number 1) 4 3 7).2) :=
  ⟨(category_identity_ignores_payload TestToken.disc
      (ParserSpec.new : ParserSpec TestDisc Nat Nat) (TestToken.number 1) (TestToken.number 2)
      4 5 4 3 5 6 7 8 7 8 rfl rfl rfl).2.1,
   (category_identity_ignores_payload TestToken.disc
      (ParserSpec.new : ParserSpec TestDisc Nat Nat) (TestToken.number 1) (TestToken.number 2)
      4 5 4 3 5 6 7 8 7 8 rfl rfl rfl).2.2.2⟩

/-- C4: batch registration applies the single-registration operation to each
token in sequence order and stops at the first failure, returning that
error; the table keeps exactly the entries registered before the failing
token (state `s1`, reached after the successful part `l1`), and tokens after
the failing one are never registered. -/
theorem batch_stops_at_first_failure
    {T D NF LF : Type} [DecidableEq D] (disc : T → D)
    (spec s1 : ParserSpec D NF LF) (l1 l2 : List T) (t : T)
    (bp lbp rbp : PrecedenceLevel) (nf : NF) (lf : LF) (e : SpecificationError T) :
    (spec.add_null_associations disc l1 bp nf = (.ok (), s1) →
      s1.add_null_assoc disc t bp nf = (.error e, s1) →
      spec.add_null_associations disc (l1 ++ t :: l2) bp nf = (.error e, s1)) ∧
    (spec.add_left_associations disc l1 bp lf = (.ok (), s1) →
      s1.add_left_assoc disc t bp lf = (.error e, s1) →
      spec.add_left_associations disc (l1 ++ t :: l2) bp lf = (.error e, s1)) ∧
    (spec.add_left_right_associations disc l1 lbp rbp lf = (.ok (), s1) →
      s1.add_left_right_assoc disc t lbp rbp lf = (.error e, s1) →
      spec.add_left_right_associations disc (l1 ++ t :: l2) lbp rbp lf = (.error e, s1)) := by
  refine ⟨?_, ?_, ?_⟩
  · induction l1 generalizing spec with
    | nil =>
      intro h1 h2
      simp only [ParserSpec.add_null_associations, Prod.mk.injEq, true_and] at h1
      subst h1
      simp [ParserSpec.add_null_associations, h2]
    | cons a as ih =>
      intro h1 h2
      simp only [ParserSpec.add_null_associations] at h1 ⊢
      rcases hstep : spec.add_null_assoc disc a bp nf with ⟨r, s⟩
      rw [hstep] at h1
      cases r with
      | error err => simp_all
      | ok u => simpa using ih s (by simpa using h1) h2
  · induction l1 generalizing spec with
    | nil =>
      intro h1 h2
      simp only [ParserSpec.add_left_associations, Prod.mk.injEq, true_and] at h1
      subst h1
      simp [ParserSpec.add_left_associations, h2]
    | cons a as ih =>
      intro h1 h2
      simp only [ParserSpec.add_left_associations] at h1 ⊢
      rcases hstep : spec.add_left_assoc disc a bp lf with ⟨r, s⟩
      rw [hstep] at h1
      cases r with
      | error err => simp_all
      | ok u => simpa using ih s (by simpa using h1) h2
  · induction l1 generalizing spec with
    | nil =>
      intro h1 h2
      simp only [ParserSpec.add_left_right_associations, Prod.mk.injEq, true_and] at h1
      subst h1
      simp [ParserSpec.add_left_right_associations, h2]
    | cons a as ih =>
      intro h1 h2
      simp only [ParserSpec.add_left_right_associations] at h1 ⊢
      rcases hstep : spec.add_left_right_assoc disc a lbp rbp lf with ⟨r, s⟩
      rw [hstep] at h1
      cases r with
      | error err => simp_all
      | ok u => simpa using ih s (by simpa using h1) h2

/-- Witness for C4 on the concrete batch `[a, b, c]` with `a = Plus`,
`b = Number 1` (colliding with a pre-existing `Number` entry), `c = Caret`:
the call fails with `TokenToRuleAlreadyDefined (Number 1)`, the entry for
`a` is present afterward, and the entry for `c` is absent. -/
theorem batch_stops_at_first_failure_witness :
    ParserSpec.add_null_associations
        ({ null_map := [(TestDisc.number, (0, 7))], left_map := [] } :
          ParserSpec TestDisc Nat Nat)
        TestToken.disc [TestToken.plus, TestToken.number 1, TestToken.caret] 3 7
      = (.error (.TokenToRuleAlreadyDefined (TestToken.number 1)),
         { null_map := [(TestDisc.plus, (3, 7)), (TestDisc.number, (0, 7))],
           left_map := [] }) ∧
    containsKey [((TestDisc.plus : TestDisc), ((3 : Nat), (7 : Nat))),
      (TestDisc.number, (0, 7))] TestDisc.plus = true ∧
    containsKey [((TestDisc.plus : TestDisc), ((3 : Nat), (7 : Nat))),
      (TestDisc.number, (0, 7))] TestDisc.caret = false :=
  ⟨(batch_stops_at_first_failure TestToken.disc
      ({ null_map := [(TestDisc.number, (0, 7))], left_map := [] } :
        ParserSpec TestDisc Nat Nat)
      ({ null_map := [(TestDisc.plus, (3, 7)), (TestDisc.number, (0, 7))],
         left_map := [] } : ParserSpec TestDisc Nat Nat)
      [TestToken.plus] [TestToken.caret] (TestToken.number 1)
      3 0 0 7 0 (.TokenToRuleAlreadyDefined (TestToken.number 1))).1 rfl rfl,
   by decide, by decide⟩

/-- C5: the prefix and infix namespaces are independent.  From a state with
no entry for the token's category in either map, registering a prefix rule
and an infix rule for that same category both succeed, in either order, and
each entry is stored in its own map. -/
theorem namespaces_independent
    {T D NF LF : Type} [DecidableEq D] (disc : T → D)
    (spec : ParserSpec D NF LF) (tok : T)
    (bp lbp rbp : PrecedenceLevel) (nf : NF) (lf : LF)
    (hnull : mapLookup spec.null_map (disc tok) = none)
    (hleft : mapLookup spec.left_map (disc tok) = none) :
    (spec.add_null_assoc disc tok bp nf).1 = .ok () ∧
    ((spec.add_null_assoc disc tok bp nf).2.add_left_right_assoc disc tok lbp rbp lf).1
      = .ok () ∧
    mapLookup
        ((spec.add_null_assoc disc tok bp nf).2.add_left_right_assoc
          disc tok lbp rbp lf).2.null_map (disc tok) = some (bp, nf) ∧
    mapLookup
        ((spec.add_null_assoc disc tok bp nf).2.add_left_right_assoc
          disc tok lbp rbp lf).2.left_map (disc tok) = some (lbp, rbp, lf) ∧
    (spec.add_left_right_assoc disc tok lbp rbp lf).1 = .ok () ∧
    ((spec.add_left_right_assoc disc tok lbp rbp lf).2.add_null_assoc disc tok bp nf).1
      = .ok () ∧
    mapLookup
        ((spec.add_left_right_assoc disc tok lbp rbp lf).2.add_null_assoc
          disc tok bp nf).2.null_map (disc tok) = some (bp, nf) ∧
    mapLookup
        ((spec.add_left_right_assoc disc tok lbp rbp lf).2.add_null_assoc
          disc tok bp nf).2.left_map (disc tok) = some (lbp, rbp, lf) := by
  refine ⟨?_, ?_, ?_, ?_, ?_, ?_, ?_, ?_⟩ <;>
    simp [ParserSpec.add_null_assoc, ParserSpec.add_left_right_assoc, containsKey,
      hnull, hleft, mapLookup_cons_self]

/-- Witness for C5: on the empty table, `Plus` receives both a prefix rule
and an infix rule; both registrations succeed and both entries are found. -/
theorem namespaces_independent_witness :
    ((ParserSpec.new : ParserSpec TestDisc Nat Nat).add_null_assoc
        TestToken.disc TestToken.plus 3 7).1 = .ok () ∧
    (((ParserSpec.new : ParserSpec TestDisc Nat Nat).add_null_assoc
        TestToken.disc TestToken.plus 3 7).2.add_left_right_assoc
        TestToken.disc TestToken.plus 10 9 8).1 = .ok () ∧
    mapLookup
        (((ParserSpec.new : ParserSpec TestDisc Nat Nat).add_null_assoc
          TestToken.disc TestToken.plus 3 7).2.add_left_right_assoc
          TestToken.disc TestToken.plus 10 9 8).2.null_map TestDisc.plus = some (3, 7) ∧
    mapLookup
        (((ParserSpec.new : ParserSpec TestDisc Nat Nat).add_null_assoc
          TestToken.disc TestToken.plus 3 7).2.add_left_right_assoc
          TestToken.disc TestToken.plus 10 9 8).2.left_map TestDisc.plus
      = some (10, 9, 8) :=
  ⟨(namespaces_independent TestToken.disc (ParserSpec.new : ParserSpec TestDisc Nat Nat)
      TestToken.plus 3 10 9 7 8 rfl rfl).1,
   (namespaces_independent TestToken.disc (ParserSpec.new : ParserSpec TestDisc Nat Nat)
      TestToken.plus 3 10 9 7 8 rfl rfl).2.1,
   (namespaces_independent TestToken.disc (ParserSpec.new : ParserSpec TestDisc Nat Nat)
      TestToken.plus 3 10 9 7 8 rfl rfl).2.2.1,
   (namespaces_independent TestToken.disc (ParserSpec.new : ParserSpec TestDisc Nat Nat)
      TestToken.plus 3 10 9 7 8 rfl rfl).2.2.2.1⟩

/-- C6: `maps` yields exactly the pair (prefix map, infix map) of the
builder, and in the concrete scenario — a prefix rule for `Number` with
power 0, an infix rule for `Plus` with powers (10, 10), an infix rule for
`Caret` with powers (20, 19) — every registration succeeds and finalizing
yields a prefix map of size 1 and an infix map of size 2 whose entries carry
exactly the registered powers and rule functions. -/
theorem maps_yield_registered_entries :
    (∀ {D NF LF : Type} (s : ParserSpec D NF LF), s.maps = (s.null_map, s.left_map)) ∧
    ((ParserSpec.new : ParserSpec TestDisc Nat Nat).add_null_assoc
        TestToken.disc (TestToken.number 42) 0 1).1 = .ok () ∧
    (((ParserSpec.new : ParserSpec TestDisc Nat Nat).add_null_assoc
        TestToken.disc (TestToken.number 42) 0 1).2.add_left_assoc
        TestToken.disc TestToken.plus 10 2).1 = .ok () ∧
    ((((ParserSpec.new : ParserSpec TestDisc Nat Nat).add_null_assoc
        TestToken.disc (TestToken.number 42) 0 1).2.add_left_assoc
        TestToken.disc TestToken.plus 10 2).2.add_left_right_assoc
        TestToken.disc TestToken.caret 20 19 3).1 = .ok () ∧
    ((((ParserSpec.new : ParserSpec TestDisc Nat Nat).add_null_assoc
        TestToken.disc (TestToken.number 42) 0 1).2.add_left_assoc
        TestToken.disc TestToken.plus 10 2).2.add_left_right_assoc
        TestToken.disc TestToken.caret 20 19 3).2.maps
      = ([(TestDisc.number, (0, 1))],
         [(TestDisc.caret, (20, 19, 3)), (TestDisc.plus, (10, 10, 2))]) ∧
    ((((ParserSpec.new : ParserSpec TestDisc Nat Nat).add_null_assoc
        TestToken.disc (TestToken.number 42) 0 1).2.add_left_assoc
        TestToken.disc TestToken.plus 10 2).2.add_left_right_assoc
        TestToken.disc TestToken.caret 20 19 3).2.maps.1.length = 1 ∧
    ((((ParserSpec.new : ParserSpec TestDisc Nat Nat).add_null_assoc
        TestToken.disc (TestToken.number 42) 0 1).2.add_left_assoc
        TestToken.disc TestToken.plus 10 2).2.add_left_right_assoc
        TestToken.disc TestToken.caret 20 19 3).2.maps.2.length = 2 :=
  ⟨fun _ => rfl, rfl, rfl, rfl, rfl, rfl, rfl⟩

/-- C7: token values of different variants never collide.  For two tokens
with distinct discriminants, in a state with no entry for either category,
registering a rule for one and then for the other in the same namespace both
succeed and the resulting map holds each entry under its own key; this holds
for the prefix namespace and for the infix namespace. -/
theorem distinct_variants_never_collide
    {T D NF LF : Type} [DecidableEq D] (disc : T → D)
    (spec : ParserSpec D NF LF) (t1 t2 : T)
    (bp1 bp2 lbp1 rbp1 lbp2 rbp2 : PrecedenceLevel) (nf1 nf2 : NF) (lf1 lf2 : LF)
    (hne : disc t1 ≠ disc t2)
    (hn1 : mapLookup spec.null_map (disc t1) = none)
    (hn2 : mapLookup spec.null_map (disc t2) = none)
    (hl1 : mapLookup spec.left_map (disc t1) = none)
    (hl2 : mapLookup spec.left_map (disc t2) = none) :
    (spec.add_null_assoc disc t1 bp1 nf1).1 = .ok () ∧
    ((spec.add_null_assoc disc t1 bp1 nf1).2.add_null_assoc disc t2 bp2 nf2).1 = .ok () ∧
    mapLookup ((spec.add_null_assoc disc t1 bp1 nf1).2.add_null_assoc
        disc t2 bp2 nf2).2.null_map (disc t1) = some (bp1, nf1) ∧
    mapLookup ((spec.add_null_assoc disc t1 bp1 nf1).2.add_null_assoc
        disc t2 bp2 nf2).2.null_map (disc t2) = some (bp2, nf2) ∧
    (spec.add_left_right_assoc disc t1 lbp1 rbp1 lf1).1 = .ok () ∧
    ((spec.add_left_right_assoc disc t1 lbp1 rbp1 lf1).2.add_left_right_assoc
        disc t2 lbp2 rbp2 lf2).1 = .ok () ∧
    mapLookup ((spec.add_left_right_assoc disc t1 lbp1 rbp1 lf1).2.add_left_right_assoc
        disc t2 lbp2 rbp2 lf2).2.left_map (disc t1) = some (lbp1, rbp1, lf1) ∧
    mapLookup ((spec.add_left_right_assoc disc t1 lbp1 rbp1 lf1).2.add_left_right_assoc
        disc t2 lbp2 rbp2 lf2).2.left_map (disc t2) = some (lbp2, rbp2, lf2) := by
  have hne' : disc t2 ≠ disc t1 := Ne.symm hne
  refine ⟨?_, ?_, ?_, ?_, ?_, ?_, ?_, ?_⟩ <;>
    simp [ParserSpec.add_null_assoc, ParserSpec.add_left_right_assoc, containsKey,
      mapLookup, hn1, hn2, hl1, hl2, hne, hne']

/-- Witness for C7: `Number 5` and `Plus` have different variants; on the
empty table both prefix registrations succeed, each entry under its own
discriminant. -/
theorem distinct_variants_never_collide_witness :
    (((ParserSpec.new : ParserSpec TestDisc Nat Nat).add_null_assoc
        TestToken.disc (TestToken.number 5) 1 2).2.add_null_assoc
        TestToken.disc TestToken.plus 3 4).1 = .ok () ∧
    mapLookup (((ParserSpec.new : ParserSpec TestDisc Nat Nat).add_null_assoc
        TestToken.disc (TestToken.number 5) 1 2).2.add_null_assoc
        TestToken.disc TestToken.plus 3 4).2.null_map TestDisc.number = some (1, 2) ∧
    mapLookup (((ParserSpec.new : ParserSpec TestDisc Nat Nat).add_null_assoc
        TestToken.disc (TestToken.number 5) 1 2).2.add_null_assoc
        TestToken.disc TestToken.plus 3 4).2.null_map TestDisc.plus = some (3, 4) :=
  ⟨(distinct_variants_never_collide TestToken.disc
      (ParserSpec.new : ParserSpec TestDisc Nat Nat) (TestToken.number 5) TestToken.plus
      1 3 1 1 3 3 2 4 2 4 (by decide) rfl rfl rfl rfl).2.1,
   (distinct_variants_never_collide TestToken.disc
      (ParserSpec.new : ParserSpec TestDisc Nat Nat) (TestToken.number 5) TestToken.plus
      1 3 1 1 3 3 2 4 2 4 (by decide) rfl rfl rfl rfl).2.2.1,
   (distinct_variants_never_collide TestToken.disc
      (ParserSpec.new : ParserSpec TestDisc Nat Nat) (TestToken.number 5) TestToken.plus
      1 3 1 1 3 3 2 4 2 4 (by decide) rfl rfl rfl rfl).2.2.2.1⟩

/-- C8: construction yields an empty table — `new` has empty prefix and
infix maps, and the `Default` impl produces the same empty spec as `new`. -/
theorem new_yields_empty_table {D NF LF : Type} :
    (ParserSpec.new : ParserSpec D NF LF).null_map = [] ∧
    (ParserSpec.new : ParserSpec D NF LF).left_map = [] ∧
    (ParserSpec.defaultSpec : ParserSpec D NF LF) = ParserSpec.new :=
  ⟨rfl, rfl, rfl⟩

/-- Any result of a registration operation is either success or a
`TokenToRuleAlreadyDefined` error — `SpecificationError` has no other
constructor. -/
theorem except_result_shape {T : Type} (r : Except (SpecificationError T) Unit) :
    r = .ok () ∨ ∃ tk, r = .error (.TokenToRuleAlreadyDefined tk) := by
  cases r with
  | ok u => cases u; exact Or.inl rfl
  | error e => cases e with
    | TokenToRuleAlreadyDefined tk => exact Or.inr ⟨tk, rfl⟩

/-- C9: every builder operation is a total function and its only failure
mode is returning a `SpecificationError` value (always of shape
`TokenToRuleAlreadyDefined`): for every table state and arguments, each of
`add_null_assoc`, `add_left_assoc`, `add_left_right_assoc`, the three batch
forms, and `maps` produces a value, with any error carrying an offending
token. -/
theorem operations_total_no_panic
    {T D NF LF : Type} [DecidableEq D] (disc : T → D)
    (spec : ParserSpec D NF LF) (tok : T) (toks : List T)
    (bp lbp rbp : PrecedenceLevel) (nf : NF) (lf : LF) :
    ((spec.add_null_assoc disc tok bp nf).1 = .ok () ∨
      ∃ tk, (spec.add_null_assoc disc tok bp nf).1 = .error (.TokenToRuleAlreadyDefined tk)) ∧
    ((spec.add_left_assoc disc tok bp lf).1 = .ok () ∨
      ∃ tk, (spec.add_left_assoc disc tok bp lf).1 = .error (.TokenToRuleAlreadyDefined tk)) ∧
    ((spec.add_left_right_assoc disc tok lbp rbp lf).1 = .ok () ∨
      ∃ tk, (spec.add_left_right_assoc disc tok lbp rbp lf).1
        = .error (.TokenToRuleAlreadyDefined tk)) ∧
    ((spec.add_null_associations disc toks bp nf).1 = .ok () ∨
      ∃ tk, (spec.add_null_associations disc toks bp nf).1
        = .error (.TokenToRuleAlreadyDefined tk)) ∧
    ((spec.add_left_associations disc toks bp lf).1 = .ok () ∨
      ∃ tk, (spec.add_left_associations disc toks bp lf).1
        = .error (.TokenToRuleAlreadyDefined tk)) ∧
    ((spec.add_left_right_associations disc toks lbp rbp lf).1 = .ok () ∨
      ∃ tk, (spec.add_left_right_associations disc toks lbp rbp lf).1
        = .error (.TokenToRuleAlreadyDefined tk)) ∧
    spec.maps = (spec.null_map, spec.left_map) :=
  ⟨except_result_shape _, except_result_shape _, except_result_shape _,
   except_result_shape _, except_result_shape _, except_result_shape _, rfl⟩

/-- A prefix registration never touches the infix map, whether it succeeds
or fails. -/
theorem add_null_assoc_keeps_left_map
    {T D NF LF : Type} [DecidableEq D] (disc : T → D)
    (spec : ParserSpec D NF LF) (tok : T) (bp : PrecedenceLevel) (nf : NF) :
    (spec.add_null_assoc disc tok bp nf).2.left_map = spec.left_map := by
  rcases h : mapLookup spec.null_map (disc tok) with _ | v <;>
    simp [ParserSpec.add_null_assoc, h]

/-- An infix registration with distinct powers never touches the prefix map,
whether it succeeds or fails. -/
theorem add_left_right_assoc_keeps_null_map
    {T D NF LF : Type} [DecidableEq D] (disc : T → D)
    (spec : ParserSpec D NF LF) (tok : T) (lbp rbp : PrecedenceLevel) (lf : LF) :
    (spec.add_left_right_assoc disc tok lbp rbp lf).2.null_map = spec.null_map := by
  by_cases h : containsKey spec.left_map (disc tok) <;>
    simp [ParserSpec.add_left_right_assoc, h]

/-- Batch prefix registration never touches the infix map. -/
theorem add_null_associations_keeps_left_map
    {T D NF LF : Type} [DecidableEq D] (disc : T → D)
    (spec : ParserSpec D NF LF) (toks : List T) (bp : PrecedenceLevel) (nf : NF) :
    (spec.add_null_associations disc toks bp nf).2.left_map = spec.left_map := by
  induction toks generalizing spec with
  | nil => rfl
  | cons t ts ih =>
    simp only [ParserSpec.add_null_associations]
    rcases hstep : spec.add_null_assoc disc t bp nf with ⟨r, s⟩
    have hs : s.left_map = spec.left_map := by
      have h := add_null_assoc_keeps_left_map disc spec t bp nf
      rw [hstep] at h; exact h
    cases r with
    | error e => simpa using hs
    | ok u => simpa using (ih s).trans hs

/-- Batch infix registration (equal powers) never touches the prefix map. -/
theorem add_left_associations_keeps_null_map
    {T D NF LF : Type} [DecidableEq D] (disc : T → D)
    (spec : ParserSpec D NF LF) (toks : List T) (bp : PrecedenceLevel) (lf : LF) :
    (spec.add_left_associations disc toks bp lf).2.null_map = spec.null_map := by
  induction toks generalizing spec with
  | nil => rfl
  | cons t ts ih =>
    simp only [ParserSpec.add_left_associations]
    rcases hstep : spec.add_left_assoc disc t bp lf with ⟨r, s⟩
    have hs : s.null_map = spec.null_map := by
      have h := add_left_right_assoc_keeps_null_map disc spec t bp bp lf
      rw [show spec.add_left_right_assoc disc t bp bp lf = (r, s) from hstep] at h
      exact h
    cases r with
    | error e => simpa using hs
    | ok u => simpa using (ih s).trans hs

/-- Batch infix registration (distinct powers) never touches the prefix
map. -/
theorem add_left_right_associations_keeps_null_map
    {T D NF LF : Type} [DecidableEq D] (disc : T → D)
    (spec : ParserSpec D NF LF) (toks : List T) (lbp rbp : PrecedenceLevel) (lf : LF) :
    (spec.add_left_right_associations disc toks lbp rbp lf).2.null_map = spec.null_map := by
  induction toks generalizing spec with
  | nil => rfl
  | cons t ts ih =>
    simp only [ParserSpec.add_left_right_associations]
    rcases hstep : spec.add_left_right_assoc disc t lbp rbp lf with ⟨r, s⟩
    have hs : s.null_map = spec.null_map := by
      have h := add_left_right_assoc_keeps_null_map disc spec t lbp rbp lf
      rw [hstep] at h; exact h
    cases r with
    | error e => simpa using hs
    | ok u => simpa using (ih s).trans hs

/-- C10 (frame property): every prefix registration, single or batch, leaves
the infix map unchanged whether it succeeds or fails, and every infix
registration, single or batch, leaves the prefix map unchanged whether it
succeeds or fails. -/
theorem registrations_frame_property
    {T D NF LF : Type} [DecidableEq D] (disc : T → D)
    (spec : ParserSpec D NF LF) (tok : T) (toks : List T)
    (bp lbp rbp : PrecedenceLevel) (nf : NF) (lf : LF) :
    (spec.add_null_assoc disc tok bp nf).2.left_map = spec.left_map ∧
    (spec.add_left_assoc disc tok bp lf).2.null_map = spec.null_map ∧
    (spec.add_left_right_assoc disc tok lbp rbp lf).2.null_map = spec.null_map ∧
    (spec.add_null_associations disc toks bp nf).2.left_map = spec.left_map ∧
    (spec.add_left_associations disc toks bp lf).2.null_map = spec.null_map ∧
    (spec.add_left_right_associations disc toks lbp rbp lf).2.null_map = spec.null_map :=
  ⟨add_null_assoc_keeps_left_map disc spec tok bp nf,
   add_left_right_assoc_keeps_null_map disc spec tok bp bp lf,
   add_left_right_assoc_keeps_null_map disc spec tok lbp rbp lf,
   add_null_associations_keeps_left_map disc spec toks bp nf,
   add_left_associations_keeps_null_map disc spec toks bp lf,
   add_left_right_associations_keeps_null_map disc spec toks lbp rbp lf⟩

end Prattle
